import Mathlib

/-!
Shallow embedding of the `ReleaseNotifier` class of
`gh-release-update-notifier` (src/index.ts) and proofs about it.

Modelling conventions:
* `published_at` ISO-8601 strings are represented by their epoch value
  (`new Date(s).getTime()`), an `Int`; the code only ever compares these
  parsed values, never the raw strings.
* The JavaScript fields `cachedReleases : GitHubReleaseResponse[] | null`
  and `lastFetchTime : number` become `NotifierState`.
* Disk writes are modelled by returning the payload that reaches the disk
  (`Option CacheData`), together with a `writeSucceeds : Bool` input that
  models whether `writeFileSync` throws; the `try/catch` in
  `saveCacheToDisk` swallows the failure.
* The external source (`fetch` of the GitHub releases endpoint) is
  modelled by a `source : List GitHubReleaseResponse` input, and each
  operation additionally reports whether it invoked the source.
* For `loadCacheFromDisk` the JavaScript value space matters (a parsed
  JSON object may lack a field, leaving `undefined` in a field typed
  `| null`), so the loaded state uses dedicated types with an `undef`
  constructor.
-/

/-- Raw release record as returned by the GitHub API (`GitHubReleaseResponse`
in src/types.ts); `published_at` is the parsed epoch value. -/
structure GitHubReleaseResponse where
  tag_name : String
  name : Option String
  html_url : String
  published_at : Int
  prerelease : Bool
  draft : Bool
deriving Repr, DecidableEq

/-- Public-facing release record (`Release` in src/types.ts). -/
structure Release where
  tagName : String
  name : Option String
  prerelease : Bool
  draft : Bool
  htmlUrl : String
  publishedAt : Int
deriving Repr, DecidableEq

/-- The field-by-field conversion performed at each return site of
`getLatestRelease`, `getLatestPrerelease` and `checkVersion`. -/
def toRelease (r : GitHubReleaseResponse) : Release :=
  ⟨r.tag_name, r.name, r.prerelease, r.draft, r.html_url, r.published_at⟩

/-- Result of `checkVersion` (`VersionCheckResult` in src/types.ts). -/
structure VersionCheckResult where
  updateAvailable : Bool
  currentVersion : String
  latestVersion : Option String
  latestRelease : Option Release
deriving Repr, DecidableEq

/-- Persisted cache file payload (`CacheData` in src/types.ts). -/
structure CacheData where
  lastFetchTime : Int
  releases : List GitHubReleaseResponse
deriving Repr, DecidableEq

/-- JavaScript `String.prototype.trim`: drop leading and trailing
whitespace, embedded over the character list of the string. -/
def jsTrim (s : String) : String :=
  ⟨((s.data.dropWhile Char.isWhitespace).reverse.dropWhile Char.isWhitespace).reverse⟩

/-- `replace(/^v/i, '')`: remove one leading `v` or `V` if present. -/
def stripLeadingV (chars : List Char) : List Char :=
  match chars with
  | c :: rest => if c = 'v' ∨ c = 'V' then rest else c :: rest
  | [] => []

/-- `normalizeVersion`: `version.trim().replace(/^v/i, '')` — trim
whitespace, then strip a single leading `v` or `V`. -/
def normalizeVersion (version : String) : String :=
  ⟨stripLeadingV (jsTrim version).data⟩

/-- The ordering imposed by the comparator passed to `releases.sort` in
`fetchAllReleases` (`(a, b) => dateB - dateA`): `a` precedes `b` iff
`b.published_at ≤ a.published_at`, i.e. descending by `published_at`. -/
def releaseGe (a b : GitHubReleaseResponse) : Prop :=
  b.published_at ≤ a.published_at

instance : DecidableRel releaseGe :=
  fun a b => Int.decLe b.published_at a.published_at

instance : IsTotal GitHubReleaseResponse releaseGe :=
  ⟨fun a b => (Int.le_total b.published_at a.published_at).imp id id⟩

instance : IsTrans GitHubReleaseResponse releaseGe :=
  ⟨fun _ _ _ h1 h2 => le_trans h2 h1⟩

/-- The sort performed in `fetchAllReleases` on every real fetch.
JavaScript `Array.prototype.sort` is a stable sort ordered by the
comparator; it is modelled by the stable `insertionSort`. -/
def sortReleases (rs : List GitHubReleaseResponse) : List GitHubReleaseResponse :=
  List.insertionSort releaseGe rs

/-- The filter callback in `getLatestRelease`: drop drafts, and drop
prereleases unless `includePrerelease` is set. -/
def isValidRelease (includePrerelease : Bool) (release : GitHubReleaseResponse) : Bool :=
  if release.draft then false
  else if !includePrerelease && release.prerelease then false
  else true

/-- The post-fetch body of `getLatestRelease`: filter the (already
sorted) list and return the first valid entry, or `none`. -/
def getLatestReleaseFromList (releases : List GitHubReleaseResponse)
    (includePrerelease : Bool) : Option Release :=
  let validReleases := releases.filter (isValidRelease includePrerelease)
  match validReleases with
  | [] => none
  | latest :: _ => some (toRelease latest)

/-- `getLatestRelease` on the fetch path: the source list is sorted by
`fetchAllReleases` before filtering. -/
def getLatestReleaseOfSource (source : List GitHubReleaseResponse)
    (includePrerelease : Bool) : Option Release :=
  getLatestReleaseFromList (sortReleases source) includePrerelease

/-- The post-fetch body of `getLatestPrerelease`: first non-draft
prerelease of the list. -/
def getLatestPrereleaseFromList (releases : List GitHubReleaseResponse) : Option Release :=
  (releases.find? (fun r => r.prerelease && !r.draft)).map toRelease

/-- The predicate of the `releases.find` locating the current release in
`checkVersion`: normalized tags equal, or tags equal verbatim. -/
def matchesCurrent (currentVersion : String) (r : GitHubReleaseResponse) : Bool :=
  normalizeVersion r.tag_name == normalizeVersion currentVersion ||
    r.tag_name == currentVersion

/-- The `releases.find` locating the current release in `checkVersion`. -/
def findCurrentRelease (currentVersion : String)
    (releases : List GitHubReleaseResponse) : Option GitHubReleaseResponse :=
  releases.find? (matchesCurrent currentVersion)

/-- The `releases.find` selecting the reference release in `checkVersion`,
branching on the `isPrerelease` argument exactly as the code does. -/
def findLatestQualifying (isPre : Bool)
    (releases : List GitHubReleaseResponse) : Option GitHubReleaseResponse :=
  if isPre then releases.find? (fun r => r.prerelease && !r.draft)
  else releases.find? (fun r => !r.prerelease && !r.draft)

/-- `isVersionOlder`: strict comparison of the parsed publish dates. -/
def isVersionOlder (date1 date2 : Int) : Bool :=
  date1 < date2

/-- The post-fetch body of `checkVersion(currentVersion, isPrerelease)`
over the release list it obtained. -/
def checkVersionFromList (currentVersion : String) (isPre : Bool)
    (releases : List GitHubReleaseResponse) : VersionCheckResult :=
  if releases.length = 0 then
    ⟨false, currentVersion, none, none⟩
  else
    let currentRelease := findCurrentRelease currentVersion releases
    match findLatestQualifying isPre releases with
    | none => ⟨false, currentVersion, none, none⟩
    | some latestRelease =>
      let latest := toRelease latestRelease
      match currentRelease with
      | none => ⟨true, currentVersion, some latestRelease.tag_name, some latest⟩
      | some currentRel =>
        ⟨isVersionOlder currentRel.published_at latestRelease.published_at,
          currentVersion, some latestRelease.tag_name, some latest⟩

/-! ## Cache state and the stateful operations -/

/-- The two cache fields of the class, at their declared types:
`cachedReleases : GitHubReleaseResponse[] | null` and
`lastFetchTime : number`. -/
structure NotifierState where
  cachedReleases : Option (List GitHubReleaseResponse)
  lastFetchTime : Int
deriving Repr, DecidableEq

/-- Field initializers of the class, before `loadCacheFromDisk` runs:
`cachedReleases = null`, `lastFetchTime = 0`. -/
def initialNotifierState : NotifierState :=
  ⟨none, 0⟩

/-- `saveCacheToDisk`: no-op when no cache file path is configured;
otherwise writes either the explicit empty payload (when the in-memory
cache is `null`) or the current cache.  A throwing `writeFileSync`
(`writeSucceeds = false`) is swallowed by the `try/catch`; the returned
value is the payload that actually reached the disk, if any. -/
def saveCacheToDisk (cacheFilePathConfigured : Bool) (s : NotifierState)
    (writeSucceeds : Bool) : Option CacheData :=
  if !cacheFilePathConfigured then none
  else if !writeSucceeds then none
  else
    match s.cachedReleases with
    | none => some ⟨0, []⟩
    | some rs => some ⟨s.lastFetchTime, rs⟩

/-- `clearCache`: reset both fields, then persist via `saveCacheToDisk`.
Returns the new in-memory state and the disk payload. -/
def clearCache (cacheFilePathConfigured : Bool) (_s : NotifierState)
    (writeSucceeds : Bool) : NotifierState × Option CacheData :=
  let cleared : NotifierState := ⟨none, 0⟩
  (cleared, saveCacheToDisk cacheFilePathConfigured cleared writeSucceeds)

/-- Outcome of one `fetchAllReleases` call: the list handed to the
caller, the state afterwards, whether the external source was invoked,
and the payload written to disk (if any). -/
structure FetchOutcome where
  releases : List GitHubReleaseResponse
  state : NotifierState
  invokedSource : Bool
  diskWrite : Option CacheData
deriving Repr, DecidableEq

/-- The fetch path of `fetchAllReleases`: hit the source, sort the
result descending by `published_at`, store it in memory with the current
time, and persist. -/
def fetchFromSource (cacheFilePathConfigured : Bool) (now : Int)
    (source : List GitHubReleaseResponse) (writeSucceeds : Bool) : FetchOutcome :=
  let sorted := sortReleases source
  let s : NotifierState := ⟨some sorted, now⟩
  ⟨sorted, s, true, saveCacheToDisk cacheFilePathConfigured s writeSucceeds⟩

/-- `fetchAllReleases`: return the cached list when
`cachedReleases !== null && checkInterval > 0 && now - lastFetchTime < checkInterval`,
otherwise fetch from the source. -/
def fetchAllReleases (checkInterval : Int) (cacheFilePathConfigured : Bool)
    (s : NotifierState) (now : Int) (source : List GitHubReleaseResponse)
    (writeSucceeds : Bool) : FetchOutcome :=
  match s.cachedReleases with
  | some cached =>
    if 0 < checkInterval ∧ now - s.lastFetchTime < checkInterval then
      ⟨cached, s, false, none⟩
    else fetchFromSource cacheFilePathConfigured now source writeSucceeds
  | none => fetchFromSource cacheFilePathConfigured now source writeSucceeds

/-- The public `getLatestRelease`, with the fetch-or-cache step explicit. -/
def getLatestReleaseOp (includePrerelease : Bool) (checkInterval : Int)
    (cacheFilePathConfigured : Bool) (s : NotifierState) (now : Int)
    (source : List GitHubReleaseResponse) (writeSucceeds : Bool) :
    Option Release × FetchOutcome :=
  let f := fetchAllReleases checkInterval cacheFilePathConfigured s now source writeSucceeds
  (getLatestReleaseFromList f.releases includePrerelease, f)

/-- The public `getLatestPrerelease`, with the fetch-or-cache step explicit. -/
def getLatestPrereleaseOp (checkInterval : Int) (cacheFilePathConfigured : Bool)
    (s : NotifierState) (now : Int) (source : List GitHubReleaseResponse)
    (writeSucceeds : Bool) : Option Release × FetchOutcome :=
  let f := fetchAllReleases checkInterval cacheFilePathConfigured s now source writeSucceeds
  (getLatestPrereleaseFromList f.releases, f)

/-- The public `checkVersion`, with the fetch-or-cache step explicit. -/
def checkVersionOp (currentVersion : String) (isPre : Bool) (checkInterval : Int)
    (cacheFilePathConfigured : Bool) (s : NotifierState) (now : Int)
    (source : List GitHubReleaseResponse) (writeSucceeds : Bool) :
    VersionCheckResult × FetchOutcome :=
  let f := fetchAllReleases checkInterval cacheFilePathConfigured s now source writeSucceeds
  (checkVersionFromList currentVersion isPre f.releases, f)

/-! ## The constructor's cache load, over the JavaScript value space -/

/-- Value of the `cachedReleases` field right after `loadCacheFromDisk`:
JavaScript distinguishes `null` (the initializer, and what the catch
block restores) from `undefined` (what `cache.releases` yields when the
parsed JSON object lacks the field) from an actual array. -/
inductive LoadedReleasesField where
  | null
  | undef
  | val (releases : List GitHubReleaseResponse)
deriving Repr, DecidableEq

/-- Value of the `lastFetchTime` field right after `loadCacheFromDisk`:
a number, or `undefined` when the parsed JSON object lacks the field. -/
inductive LoadedTimeField where
  | undef
  | num (n : Int)
deriving Repr, DecidableEq

/-- The pair of cache fields right after construction. -/
structure LoadedCacheState where
  cachedReleases : LoadedReleasesField
  lastFetchTime : LoadedTimeField
deriving Repr, DecidableEq

/-- What the configured cache file can hold, as seen by
`loadCacheFromDisk`: absent, unreadable, unparsable JSON, JSON `null`
(whose field access throws, landing in the catch), or parsed JSON whose
two fields are each present or absent. -/
inductive CacheFileState where
  | missing
  | readError
  | parseError
  | parsedNull
  | parsedObject (releases : Option (List GitHubReleaseResponse)) (lastFetchTime : Option Int)
deriving Repr, DecidableEq

/-- `loadCacheFromDisk`, run by the constructor: returns without change
when no path is configured or the file is missing; any thrown error
(read, parse, or field access on JSON `null`) is caught and both fields
reset; otherwise both fields are assigned from the parsed object, each
becoming `undefined` when the object lacks it. -/
def loadCacheFromDisk (cacheFilePathConfigured : Bool)
    (file : CacheFileState) : LoadedCacheState :=
  if !cacheFilePathConfigured then ⟨.null, .num 0⟩
  else
    match file with
    | .missing => ⟨.null, .num 0⟩
    | .readError => ⟨.null, .num 0⟩
    | .parseError => ⟨.null, .num 0⟩
    | .parsedNull => ⟨.null, .num 0⟩
    | .parsedObject rs t =>
      ⟨match rs with
        | none => .undef
        | some l => .val l,
        match t with
        | none => .undef
        | some n => .num n⟩

/-- The all-or-nothing property the spec demands of the cache right
after construction: either absent (`null` releases, zero timestamp), or
both an actual release list and an actual numeric timestamp. -/
def cacheAllOrNothing (s : LoadedCacheState) : Bool :=
  match s.cachedReleases, s.lastFetchTime with
  | .null, .num 0 => true
  | .val _, .num _ => true
  | _, _ => false

/-! ## Helper lemmas -/

/-- The filter callback of `getLatestRelease`, spelled as a proposition:
keep exactly the non-drafts that are non-prereleases unless
`includePrerelease` is set. -/
theorem isValidRelease_iff (includePrerelease : Bool) (r : GitHubReleaseResponse) :
    isValidRelease includePrerelease r = true ↔
      r.draft = false ∧ (includePrerelease = false → r.prerelease = false) := by
  cases hd : r.draft <;> cases hp : r.prerelease <;> cases includePrerelease <;>
    simp [isValidRelease, hd, hp]

/-- `find?` returns the first match: the list splits around the found
element, with no match before it. -/
theorem find?_eq_some_first {α : Type} (p : α → Bool) (l : List α) (a : α)
    (h : l.find? p = some a) :
    p a = true ∧ ∃ l1 l2, l = l1 ++ a :: l2 ∧ ∀ x ∈ l1, p x = false := by
  induction l with
  | nil => simp [List.find?] at h
  | cons b t ih =>
    rw [List.find?_cons] at h
    cases hb : p b with
    | true =>
      simp [hb] at h
      subst h
      exact ⟨hb, [], t, rfl, by simp⟩
    | false =>
      simp [hb] at h
      obtain ⟨hpa, l1, l2, heq, hnone⟩ := ih h
      refine ⟨hpa, b :: l1, l2, by simp [heq], ?_⟩
      intro x hx
      rcases List.mem_cons.1 hx with rfl | hx
      · exact hb
      · exact hnone x hx

/-- Converse: a split with no match before the matching element
determines the result of `find?`. -/
theorem find?_of_split {α : Type} (p : α → Bool) (l1 l2 : List α) (a : α)
    (hpa : p a = true) (hnone : ∀ x ∈ l1, p x = false) :
    (l1 ++ a :: l2).find? p = some a := by
  induction l1 with
  | nil => simp [List.find?_cons, hpa]
  | cons b t ih =>
    have hb : p b = false := hnone b (by simp)
    simp only [List.cons_append, List.find?_cons, hb]
    exact ih fun x hx => hnone x (List.mem_cons_of_mem b hx)

/-! ## Claim C1 -/

/-- C1: on any release list returned by the source, in any order,
`getLatestRelease(includePrerelease)` returns `none` exactly when no
entry is non-draft and (unless `includePrerelease`) non-prerelease, and
otherwise returns such an entry of maximal `published_at`. -/
theorem getLatestRelease_returns_max (source : List GitHubReleaseResponse)
    (includePrerelease : Bool) :
    (getLatestReleaseOfSource source includePrerelease = none ↔
      ∀ r ∈ source, ¬ (r.draft = false ∧ (includePrerelease = false → r.prerelease = false))) ∧
    (∀ rel, getLatestReleaseOfSource source includePrerelease = some rel →
      ∃ raw, raw ∈ source ∧ raw.draft = false ∧
        (includePrerelease = false → raw.prerelease = false) ∧
        rel = toRelease raw ∧
        ∀ q ∈ source, q.draft = false → (includePrerelease = false → q.prerelease = false) →
          q.published_at ≤ raw.published_at) := by
  have hmem : ∀ x : GitHubReleaseResponse, x ∈ sortReleases source ↔ x ∈ source :=
    fun x => List.mem_insertionSort releaseGe
  have hsorted : List.Sorted releaseGe (sortReleases source) :=
    List.sorted_insertionSort releaseGe source
  have hpairF : List.Pairwise releaseGe
      ((sortReleases source).filter (isValidRelease includePrerelease)) :=
    List.Pairwise.sublist (List.filter_sublist _) hsorted
  constructor
  · cases hf : (sortReleases source).filter (isValidRelease includePrerelease) with
    | nil =>
      simp only [getLatestReleaseOfSource, getLatestReleaseFromList, hf]
      rw [List.filter_eq_nil_iff] at hf
      constructor
      · intro _ r hr hvalid
        exact hf r ((hmem r).2 hr) ((isValidRelease_iff includePrerelease r).2 hvalid)
      · intro _
        trivial
    | cons latest rest =>
      simp only [getLatestReleaseOfSource, getLatestReleaseFromList, hf]
      constructor
      · intro h
        exact absurd h (by simp)
      · intro hall
        have hlmem : latest ∈ (sortReleases source).filter (isValidRelease includePrerelease) := by
          rw [hf]
          exact List.mem_cons_self latest rest
        have := List.mem_filter.1 hlmem
        exact absurd ((isValidRelease_iff includePrerelease latest).1 this.2)
          (hall latest ((hmem latest).1 this.1))
  · intro rel hrel
    cases hf : (sortReleases source).filter (isValidRelease includePrerelease) with
    | nil =>
      rw [getLatestReleaseOfSource, getLatestReleaseFromList, hf] at hrel
      exact absurd hrel (by simp)
    | cons latest rest =>
      rw [getLatestReleaseOfSource, getLatestReleaseFromList, hf] at hrel
      have hrel' : rel = toRelease latest := by
        simpa using hrel.symm
      have hlmem : latest ∈ (sortReleases source).filter (isValidRelease includePrerelease) := by
        rw [hf]
        exact List.mem_cons_self latest rest
      have hl := List.mem_filter.1 hlmem
      obtain ⟨hdraft, hpre⟩ := (isValidRelease_iff includePrerelease latest).1 hl.2
      refine ⟨latest, (hmem latest).1 hl.1, hdraft, hpre, hrel', ?_⟩
      intro q hq hqd hqp
      have hqmem : q ∈ (sortReleases source).filter (isValidRelease includePrerelease) :=
        List.mem_filter.2 ⟨(hmem q).2 hq, (isValidRelease_iff includePrerelease q).2 ⟨hqd, hqp⟩⟩
      rw [hf] at hqmem
      rcases List.mem_cons.1 hqmem with rfl | hqrest
      · exact le_refl _
      · rw [hf] at hpairF
        exact (List.pairwise_cons.1 hpairF).1 q hqrest

/-! ## Concrete inputs used by witnesses and counterexamples
(the release set of the spec's scenario, with epoch values for the
publish dates) -/

def relStable15 : GitHubReleaseResponse :=
  ⟨"v1.5.0", some "v1.5.0", "https://example.test/15", 100, false, false⟩

def relStable20 : GitHubReleaseResponse :=
  ⟨"v2.0.0", some "v2.0.0", "https://example.test/20", 300, false, false⟩

def relDraft14 : GitHubReleaseResponse :=
  ⟨"v1.4.0", some "v1.4.0", "https://example.test/14", 50, false, true⟩

def relBeta20 : GitHubReleaseResponse :=
  ⟨"v2.0.0-beta.1", some "v2.0.0-beta.1", "https://example.test/b", 200, true, false⟩

def demoReleases : List GitHubReleaseResponse :=
  [relStable15, relStable20, relDraft14, relBeta20]

def demoSorted : List GitHubReleaseResponse :=
  [relStable20, relBeta20, relStable15, relDraft14]

/-- C1 witness at the demo release set: `getLatestRelease(false)` yields
`v2.0.0`, a qualifying entry of maximal publish date. -/
theorem getLatestRelease_returns_max_witness :
    ∃ raw, raw ∈ demoReleases ∧ raw.draft = false ∧
      (false = false → raw.prerelease = false) ∧
      toRelease relStable20 = toRelease raw ∧
      ∀ q ∈ demoReleases, q.draft = false → (false = false → q.prerelease = false) →
        q.published_at ≤ raw.published_at :=
  (getLatestRelease_returns_max demoReleases false).2 (toRelease relStable20) (by decide)

/-! ## Claim C2 -/

/-- C2: when a reference release qualifies and no release matches
`currentVersion` verbatim or after normalization, `checkVersion` reports
an available update with the reference release's tag and record. -/
theorem checkVersion_unknown_version (currentVersion : String) (isPre : Bool)
    (releases : List GitHubReleaseResponse) (ref : GitHubReleaseResponse)
    (href : findLatestQualifying isPre releases = some ref)
    (hnomatch : ∀ r ∈ releases, r.tag_name ≠ currentVersion ∧
      normalizeVersion r.tag_name ≠ normalizeVersion currentVersion) :
    checkVersionFromList currentVersion isPre releases =
      ⟨true, currentVersion, some ref.tag_name, some (toRelease ref)⟩ := by
  have hne : releases ≠ [] := by
    intro h
    subst h
    cases isPre <;> simp [findLatestQualifying] at href
  have hcur : findCurrentRelease currentVersion releases = none := by
    rw [findCurrentRelease, List.find?_eq_none]
    intro x hx
    simp [matchesCurrent, (hnomatch x hx).1, (hnomatch x hx).2]
  simp [checkVersionFromList, List.length_eq_zero, hne, href, hcur]

/-- C2 witness: a tag absent from the demo feed is reported outdated
against the top stable release. -/
theorem checkVersion_unknown_version_witness :
    checkVersionFromList "v9.9.9" false demoSorted =
      ⟨true, "v9.9.9", some relStable20.tag_name, some (toRelease relStable20)⟩ :=
  checkVersion_unknown_version "v9.9.9" false demoSorted relStable20 (by decide) (by decide)

/-! ## Claim C3 -/

/-- C3: with both a located current release and a qualifying reference,
`updateAvailable` holds exactly when the current release's publish date
is strictly below the reference's; equal dates never report an update. -/
theorem checkVersion_strict_timestamp (currentVersion : String) (isPre : Bool)
    (releases : List GitHubReleaseResponse) (c ref : GitHubReleaseResponse)
    (hc : findCurrentRelease currentVersion releases = some c)
    (href : findLatestQualifying isPre releases = some ref) :
    ((checkVersionFromList currentVersion isPre releases).updateAvailable = true ↔
      c.published_at < ref.published_at) ∧
    (c.published_at = ref.published_at →
      (checkVersionFromList currentVersion isPre releases).updateAvailable = false) := by
  have hne : releases ≠ [] := by
    intro h
    subst h
    simp [findCurrentRelease] at hc
  have hres : (checkVersionFromList currentVersion isPre releases).updateAvailable =
      isVersionOlder c.published_at ref.published_at := by
    simp [checkVersionFromList, List.length_eq_zero, hne, href, hc]
  rw [hres]
  constructor
  · simp [isVersionOlder]
  · intro he
    simp [isVersionOlder, he]

/-- C3 witness: `v1.5.0` against the demo feed compares publish dates
with the reference `v2.0.0`. -/
theorem checkVersion_strict_timestamp_witness :
    ((checkVersionFromList "v1.5.0" false demoSorted).updateAvailable = true ↔
      relStable15.published_at < relStable20.published_at) ∧
    (relStable15.published_at = relStable20.published_at →
      (checkVersionFromList "v1.5.0" false demoSorted).updateAvailable = false) :=
  checkVersion_strict_timestamp "v1.5.0" false demoSorted relStable15 relStable20
    (by decide) (by decide)

/-! ## Claim C4 -/

def relNormOnly : GitHubReleaseResponse :=
  ⟨"1.0.0", some "1.0.0", "https://example.test/n", 100, false, false⟩

def relVerbatimTag : GitHubReleaseResponse :=
  ⟨"v1.0.0", some "v1.0.0", "https://example.test/w", 50, false, false⟩

def c4Releases : List GitHubReleaseResponse :=
  [relNormOnly, relVerbatimTag]

/-- C4 counterexample: with current version `v1.0.0`, the list holds an
entry matching only after normalization (tag `1.0.0`) before an entry
matching verbatim (tag `v1.0.0`); the search selects the earlier
normalized match, not the verbatim one. -/
theorem verbatim_precedence_cex :
    relNormOnly.tag_name ≠ "v1.0.0" ∧
    normalizeVersion relNormOnly.tag_name = normalizeVersion "v1.0.0" ∧
    relVerbatimTag.tag_name = "v1.0.0" ∧
    relNormOnly ≠ relVerbatimTag ∧
    findCurrentRelease "v1.0.0" c4Releases = some relNormOnly := by
  decide

/-- C4 amended: the entry selected as current is the first, in list
order, whose tag matches verbatim or after normalization; whether the
match is verbatim or normalized carries no precedence across entries. -/
theorem findCurrentRelease_first_match (currentVersion : String)
    (releases : List GitHubReleaseResponse) (c : GitHubReleaseResponse)
    (hc : findCurrentRelease currentVersion releases = some c) :
    matchesCurrent currentVersion c = true ∧
    ∃ l1 l2, releases = l1 ++ c :: l2 ∧
      ∀ r ∈ l1, matchesCurrent currentVersion r = false :=
  find?_eq_some_first _ _ _ hc

/-- C4 amended witness at the counterexample list. -/
theorem findCurrentRelease_first_match_witness :
    matchesCurrent "v1.0.0" relNormOnly = true ∧
    ∃ l1 l2, c4Releases = l1 ++ relNormOnly :: l2 ∧
      ∀ r ∈ l1, matchesCurrent "v1.0.0" r = false :=
  findCurrentRelease_first_match "v1.0.0" c4Releases relNormOnly (by decide)

/-! ## Claim C5 -/

def c5State : NotifierState :=
  ⟨some [relStable15], 500⟩

/-- C5 counterexample: after `clearCache` the in-memory releases field is
`null` — not a present entry holding an empty list — and the state is
exactly the never-populated initial state. -/
theorem clearCache_in_memory_absent_cex :
    (clearCache true c5State true).1.cachedReleases ≠ some ([] : List GitHubReleaseResponse) ∧
    (clearCache true c5State true).1 = initialNotifierState := by
  decide

/-- C5 amended: `clearCache` resets the in-memory fields to the
never-populated representation (`null`, `0`); when a cache file path is
configured (and the write does not fail) the explicit empty entry
`{lastFetchTime = 0, releases = []}` is written to disk, and nothing is
written when no path is configured. -/
theorem clearCache_resets_and_persists_empty (cacheFilePathConfigured : Bool)
    (s : NotifierState) (writeSucceeds : Bool) :
    (clearCache cacheFilePathConfigured s writeSucceeds).1 = initialNotifierState ∧
    (cacheFilePathConfigured = true → writeSucceeds = true →
      (clearCache cacheFilePathConfigured s writeSucceeds).2 = some ⟨0, []⟩) ∧
    (cacheFilePathConfigured = false →
      (clearCache cacheFilePathConfigured s writeSucceeds).2 = none) := by
  cases cacheFilePathConfigured <;> cases writeSucceeds <;>
    simp [clearCache, saveCacheToDisk, initialNotifierState]

/-- C5 amended witness at a populated state with a configured path. -/
theorem clearCache_resets_witness :
    (clearCache true c5State true).1 = initialNotifierState ∧
    (clearCache true c5State true).2 = some ⟨0, []⟩ :=
  ⟨(clearCache_resets_and_persists_empty true c5State true).1,
    (clearCache_resets_and_persists_empty true c5State true).2.1 rfl rfl⟩

/-! ## Claim C6 -/

/-- C6: a persisted file whose JSON parses to an object lacking one of
the two fields leaves the constructed cache partially populated, not
all-or-nothing: `{"lastFetchTime": 5}` yields an `undefined` releases
field (which passes the later `!== null` presence check) beside a real
timestamp, and an object lacking `lastFetchTime` yields a real release
list beside an `undefined` timestamp. -/
theorem loadCache_partial_state_bug :
    (loadCacheFromDisk true (.parsedObject none (some 5))).cachedReleases =
      LoadedReleasesField.undef ∧
    (loadCacheFromDisk true (.parsedObject none (some 5))).lastFetchTime =
      LoadedTimeField.num 5 ∧
    cacheAllOrNothing (loadCacheFromDisk true (.parsedObject none (some 5))) = false ∧
    cacheAllOrNothing (loadCacheFromDisk true (.parsedObject (some [relStable15]) none)) = false ∧
    cacheAllOrNothing (loadCacheFromDisk true CacheFileState.missing) = true ∧
    cacheAllOrNothing (loadCacheFromDisk true CacheFileState.readError) = true ∧
    cacheAllOrNothing (loadCacheFromDisk true CacheFileState.parseError) = true ∧
    cacheAllOrNothing (loadCacheFromDisk true CacheFileState.parsedNull) = true := by
  decide

/-! ## Claim C7 -/

def freshDemoState : NotifierState :=
  ⟨some [relStable15], 1000⟩

/-- C7: while an entry is present, the interval is positive and the
elapsed time is strictly below it, no public operation invokes the
source and each consumes the cached list; when the interval is zero or
negative, or the elapsed time reaches it, every operation invokes the
source. -/
theorem cache_freshness (checkInterval : Int) (cacheFilePathConfigured : Bool)
    (s : NotifierState) (now : Int) (source : List GitHubReleaseResponse)
    (writeSucceeds : Bool) :
    (∀ cached, s.cachedReleases = some cached → 0 < checkInterval →
      now - s.lastFetchTime < checkInterval →
      (fetchAllReleases checkInterval cacheFilePathConfigured s now source
          writeSucceeds).invokedSource = false ∧
      (fetchAllReleases checkInterval cacheFilePathConfigured s now source
          writeSucceeds).releases = cached ∧
      (∀ inc, (getLatestReleaseOp inc checkInterval cacheFilePathConfigured s now source
          writeSucceeds).2.invokedSource = false ∧
        (getLatestReleaseOp inc checkInterval cacheFilePathConfigured s now source
          writeSucceeds).1 = getLatestReleaseFromList cached inc) ∧
      ((getLatestPrereleaseOp checkInterval cacheFilePathConfigured s now source
          writeSucceeds).2.invokedSource = false ∧
        (getLatestPrereleaseOp checkInterval cacheFilePathConfigured s now source
          writeSucceeds).1 = getLatestPrereleaseFromList cached) ∧
      (∀ cv isPre, (checkVersionOp cv isPre checkInterval cacheFilePathConfigured s now source
          writeSucceeds).2.invokedSource = false ∧
        (checkVersionOp cv isPre checkInterval cacheFilePathConfigured s now source
          writeSucceeds).1 = checkVersionFromList cv isPre cached)) ∧
    ((checkInterval ≤ 0 ∨ checkInterval ≤ now - s.lastFetchTime) →
      (fetchAllReleases checkInterval cacheFilePathConfigured s now source
          writeSucceeds).invokedSource = true ∧
      (∀ inc, (getLatestReleaseOp inc checkInterval cacheFilePathConfigured s now source
          writeSucceeds).2.invokedSource = true) ∧
      (getLatestPrereleaseOp checkInterval cacheFilePathConfigured s now source
          writeSucceeds).2.invokedSource = true ∧
      (∀ cv isPre, (checkVersionOp cv isPre checkInterval cacheFilePathConfigured s now source
          writeSucceeds).2.invokedSource = true)) := by
  constructor
  · intro cached hsc h1 h2
    have hfetch : fetchAllReleases checkInterval cacheFilePathConfigured s now source
        writeSucceeds = ⟨cached, s, false, none⟩ := by
      simp [fetchAllReleases, hsc, if_pos (And.intro h1 h2)]
    refine ⟨by rw [hfetch], by rw [hfetch], ?_, ?_, ?_⟩
    · intro inc
      simp [getLatestReleaseOp, hfetch]
    · simp [getLatestPrereleaseOp, hfetch]
    · intro cv isPre
      simp [checkVersionOp, hfetch]
  · intro h
    have hcond : ¬(0 < checkInterval ∧ now - s.lastFetchTime < checkInterval) := by
      rcases h with h | h
      · exact fun hc => absurd hc.1 (not_lt.2 h)
      · exact fun hc => absurd hc.2 (not_lt.2 h)
    have hfetch : (fetchAllReleases checkInterval cacheFilePathConfigured s now source
        writeSucceeds).invokedSource = true := by
      cases hsc : s.cachedReleases with
      | none => simp [fetchAllReleases, hsc, fetchFromSource]
      | some cached => simp [fetchAllReleases, hsc, if_neg hcond, fetchFromSource]
    exact ⟨hfetch, fun inc => by simp [getLatestReleaseOp, hfetch],
      by simp [getLatestPrereleaseOp, hfetch],
      fun cv isPre => by simp [checkVersionOp, hfetch]⟩

/-- C7 witness: within the window the source is not invoked; with a zero
interval it is. -/
theorem cache_freshness_witness :
    (fetchAllReleases 3600000 true freshDemoState 1500 demoReleases true).invokedSource =
      false ∧
    (fetchAllReleases 0 true freshDemoState 1500 demoReleases true).invokedSource = true :=
  ⟨((cache_freshness 3600000 true freshDemoState 1500 demoReleases true).1
      [relStable15] rfl (by decide) (by decide)).1,
    ((cache_freshness 0 true freshDemoState 1500 demoReleases true).2
      (Or.inl (by decide))).1⟩

/-! ## Claim C8 -/

/-- The reference release delivered by either branch of the
`checkVersion` selection is never a draft and always of the requested
stability class. -/
theorem findLatestQualifying_spec (isPre : Bool)
    (releases : List GitHubReleaseResponse) (ref : GitHubReleaseResponse)
    (h : findLatestQualifying isPre releases = some ref) :
    ref.draft = false ∧ ref.prerelease = isPre := by
  cases isPre with
  | false =>
    rw [findLatestQualifying, if_neg (by simp)] at h
    have := List.find?_some h
    simp at this
    exact ⟨this.2, this.1⟩
  | true =>
    rw [findLatestQualifying, if_pos rfl] at h
    have := List.find?_some h
    simp at this
    exact ⟨this.2, this.1⟩

/-- The `latestRelease` field of a `checkVersion` result is either
absent or the conversion of the selected reference release. -/
theorem checkVersion_latestRelease_cases (cv : String) (isPre : Bool)
    (releases : List GitHubReleaseResponse) :
    (checkVersionFromList cv isPre releases).latestRelease = none ∨
    ∃ ref, findLatestQualifying isPre releases = some ref ∧
      (checkVersionFromList cv isPre releases).latestRelease = some (toRelease ref) := by
  by_cases hlen : releases.length = 0
  · left
    simp [checkVersionFromList, hlen]
  · cases href : findLatestQualifying isPre releases with
    | none =>
      left
      simp [checkVersionFromList, hlen, href]
    | some ref =>
      right
      refine ⟨ref, rfl, ?_⟩
      cases hc : findCurrentRelease cv releases <;>
        simp [checkVersionFromList, hlen, href, hc]

/-- C8: no operation's result ever contains a draft release, and
`getLatestPrerelease` only ever returns prereleases. -/
theorem no_draft_ever_exposed (releases : List GitHubReleaseResponse)
    (includePrerelease : Bool) (currentVersion : String) (isPre : Bool) :
    (∀ rel, getLatestReleaseFromList releases includePrerelease = some rel →
      rel.draft = false) ∧
    (∀ rel, getLatestPrereleaseFromList releases = some rel →
      rel.draft = false ∧ rel.prerelease = true) ∧
    (∀ rel, (checkVersionFromList currentVersion isPre releases).latestRelease = some rel →
      rel.draft = false) := by
  refine ⟨?_, ?_, ?_⟩
  · intro rel hrel
    cases hf : releases.filter (isValidRelease includePrerelease) with
    | nil =>
      rw [getLatestReleaseFromList, hf] at hrel
      exact absurd hrel (by simp)
    | cons latest rest =>
      rw [getLatestReleaseFromList, hf] at hrel
      have hrel' : rel = toRelease latest := by simpa using hrel.symm
      have hlmem : latest ∈ releases.filter (isValidRelease includePrerelease) := by
        rw [hf]
        exact List.mem_cons_self latest rest
      have hvalid := (List.mem_filter.1 hlmem).2
      have hdraft := ((isValidRelease_iff includePrerelease latest).1 hvalid).1
      rw [hrel']
      exact hdraft
  · intro rel hrel
    rw [getLatestPrereleaseFromList] at hrel
    cases hfind : releases.find? (fun r => r.prerelease && !r.draft) with
    | none =>
      rw [hfind] at hrel
      exact absurd hrel (by simp)
    | some p =>
      rw [hfind] at hrel
      have hp := List.find?_some hfind
      simp at hp
      have hrel' : rel = toRelease p := by simpa using hrel.symm
      rw [hrel']
      exact ⟨hp.2, hp.1⟩
  · intro rel hrel
    rcases checkVersion_latestRelease_cases currentVersion isPre releases with h | ⟨ref, href, h⟩
    · rw [h] at hrel
      exact absurd hrel (by simp)
    · rw [h] at hrel
      have hrel' : rel = toRelease ref := by simpa using hrel.symm
      rw [hrel']
      exact (findLatestQualifying_spec isPre releases ref href).1

/-- C8 witness: the latest prerelease of the demo feed is a non-draft
prerelease. -/
theorem no_draft_ever_exposed_witness :
    (toRelease relBeta20).draft = false ∧ (toRelease relBeta20).prerelease = true :=
  (no_draft_ever_exposed demoSorted false "v1.5.0" false).2.1 (toRelease relBeta20)
    (by decide)

/-! ## Claim C9 -/

/-- C9: a failing disk write changes nothing observable to the caller:
every operation's returned value and in-memory state are the same as
when the write succeeds, and `clearCache` still resets the state. -/
theorem disk_write_failure_swallowed (checkInterval : Int)
    (cacheFilePathConfigured : Bool) (s : NotifierState) (now : Int)
    (source : List GitHubReleaseResponse) (includePrerelease : Bool)
    (currentVersion : String) (isPre : Bool) :
    (fetchAllReleases checkInterval cacheFilePathConfigured s now source false).releases =
      (fetchAllReleases checkInterval cacheFilePathConfigured s now source true).releases ∧
    (fetchAllReleases checkInterval cacheFilePathConfigured s now source false).state =
      (fetchAllReleases checkInterval cacheFilePathConfigured s now source true).state ∧
    (getLatestReleaseOp includePrerelease checkInterval cacheFilePathConfigured s now
        source false).1 =
      (getLatestReleaseOp includePrerelease checkInterval cacheFilePathConfigured s now
        source true).1 ∧
    (getLatestPrereleaseOp checkInterval cacheFilePathConfigured s now source false).1 =
      (getLatestPrereleaseOp checkInterval cacheFilePathConfigured s now source true).1 ∧
    (checkVersionOp currentVersion isPre checkInterval cacheFilePathConfigured s now
        source false).1 =
      (checkVersionOp currentVersion isPre checkInterval cacheFilePathConfigured s now
        source true).1 ∧
    (clearCache cacheFilePathConfigured s false).1 =
      (clearCache cacheFilePathConfigured s true).1 := by
  have hr : (fetchAllReleases checkInterval cacheFilePathConfigured s now source false).releases =
      (fetchAllReleases checkInterval cacheFilePathConfigured s now source true).releases ∧
      (fetchAllReleases checkInterval cacheFilePathConfigured s now source false).state =
      (fetchAllReleases checkInterval cacheFilePathConfigured s now source true).state := by
    cases hsc : s.cachedReleases with
    | none => simp [fetchAllReleases, hsc, fetchFromSource]
    | some cached =>
      by_cases hcond : 0 < checkInterval ∧ now - s.lastFetchTime < checkInterval
      · simp [fetchAllReleases, hsc, if_pos hcond]
      · simp [fetchAllReleases, hsc, if_neg hcond, fetchFromSource]
  refine ⟨hr.1, hr.2, ?_, ?_, ?_, ?_⟩
  · simp [getLatestReleaseOp, hr.1]
  · simp [getLatestPrereleaseOp, hr.1]
  · simp [checkVersionOp, hr.1]
  · simp [clearCache]

/-! ## Claim C10 -/

/-- C10: the current-release search ignores the draft and prerelease
flags: an entry that is a draft, or whose prerelease flag differs from
the requested class, is still selected when it is the first tag match,
and its publish date is the one compared against the reference. -/
theorem checkVersion_current_match_ignores_flags (currentVersion : String)
    (isPre : Bool) (l1 l2 : List GitHubReleaseResponse)
    (c ref : GitHubReleaseResponse)
    (hmatch : matchesCurrent currentVersion c = true)
    (hfirst : ∀ r ∈ l1, matchesCurrent currentVersion r = false)
    (_hflags : c.draft = true ∨ c.prerelease ≠ isPre)
    (href : findLatestQualifying isPre (l1 ++ c :: l2) = some ref) :
    findCurrentRelease currentVersion (l1 ++ c :: l2) = some c ∧
    (checkVersionFromList currentVersion isPre (l1 ++ c :: l2)).updateAvailable =
      isVersionOlder c.published_at ref.published_at := by
  have hc : findCurrentRelease currentVersion (l1 ++ c :: l2) = some c :=
    find?_of_split _ _ _ _ hmatch hfirst
  refine ⟨hc, ?_⟩
  have hlen : (l1 ++ c :: l2).length = 0 ↔ False := by simp
  simp [checkVersionFromList, hlen, hc, href]

/-- C10 witness: the draft `v1.4.0` is still matched as the current
release and its publish date drives the comparison. -/
theorem checkVersion_current_match_ignores_flags_witness :
    findCurrentRelease "v1.4.0"
        ([relStable20, relBeta20, relStable15] ++ relDraft14 :: []) = some relDraft14 ∧
    (checkVersionFromList "v1.4.0" false
        ([relStable20, relBeta20, relStable15] ++ relDraft14 :: [])).updateAvailable =
      isVersionOlder relDraft14.published_at relStable20.published_at :=
  checkVersion_current_match_ignores_flags "v1.4.0" false
    [relStable20, relBeta20, relStable15] [] relDraft14 relStable20
    (by decide) (by decide) (by decide) (by decide)
